import Mathlib

/-!
Verification development for the YetAnotherAA-Validator signer service.

The repository sources under scrutiny are the NestJS services
(DashboardService, AdminService, BlockchainService).  The BLS
aggregation engine, the EIP-2537 curve codec and the gossip membership
protocol are described by the specification but their implementation
files are not part of the source tree given here, so those components
are modelled from the specification text (each such definition carries
a doc comment starting with "Modelled from the spec:").
-/

/- ===================== EIP-2537 curve codec ===================== -/

/-- Modelled from the spec: the BLS12-381 base field modulus used by the
EIP-2537 encoding (a 381-bit prime).  The codec implementation file is
not under the given sources. -/
def fieldModulus : Nat :=
  0x1a0111ea397fe69a4b1ba7b6434bacd764774b84f38512bf6730d2a0f6b0f6241eabfffeb153ffffb9feffffffffaaab

/-- Big-endian byte encoding of a natural number into exactly `k` bytes
(most significant byte first). -/
def beBytes : Nat → Nat → List Nat
  | 0, _ => []
  | k + 1, n => beBytes k (n / 256) ++ [n % 256]

/-- Big-endian byte decoding, folding bytes most-significant first. -/
def beDecode (l : List Nat) : Nat :=
  l.foldl (fun acc b => acc * 256 + b) 0

/-- Modelled from the spec: a G1 point as a pair of base-field
coordinates; well-formedness requires the coordinates to be field
elements (the codec round-trip law is about every such valid point). -/
structure G1Point where
  x : Nat
  y : Nat
deriving DecidableEq

/-- Modelled from the spec: a G2 point, with coordinates in the
quadratic extension field, i.e. four base-field components. -/
structure G2Point where
  x0 : Nat
  x1 : Nat
  y0 : Nat
  y1 : Nat
deriving DecidableEq

def G1Point.wellFormed (p : G1Point) : Prop :=
  p.x < fieldModulus ∧ p.y < fieldModulus

instance (p : G1Point) : Decidable p.wellFormed := by
  unfold G1Point.wellFormed
  infer_instance

def G2Point.wellFormed (q : G2Point) : Prop :=
  q.x0 < fieldModulus ∧ q.x1 < fieldModulus ∧ q.y0 < fieldModulus ∧ q.y1 < fieldModulus

instance (q : G2Point) : Decidable q.wellFormed := by
  unfold G2Point.wellFormed
  infer_instance

/-- Modelled from the spec: codec failure on wrong length or nonzero
padding bytes. -/
inductive CodecError where
  | MalformedPointError
deriving DecidableEq

/-- Modelled from the spec: a field element is written as 64 bytes, the
48-byte big-endian value zero-left-padded with 16 zero bytes. -/
def encodeFp (n : Nat) : List Nat :=
  List.replicate 16 0 ++ beBytes 48 n

/-- Modelled from the spec: decoding one 64-byte padded field element;
fails when the 16 padding bytes are not all zero. -/
def decodeFp (chunk : List Nat) : Except CodecError Nat :=
  if (chunk.take 16).all (fun b => b == 0) then
    .ok (beDecode (chunk.drop 16))
  else
    .error .MalformedPointError

/-- Modelled from the spec: G1 points encode to 128 bytes, two 64-byte
zero-left-padded field elements. -/
def encodeG1 (p : G1Point) : List Nat :=
  encodeFp p.x ++ encodeFp p.y

/-- Modelled from the spec: G2 points encode to 256 bytes, four 64-byte
zero-left-padded field elements. -/
def encodeG2 (q : G2Point) : List Nat :=
  encodeFp q.x0 ++ encodeFp q.x1 ++ encodeFp q.y0 ++ encodeFp q.y1

/-- Modelled from the spec: G1 decoding, failing with
`MalformedPointError` when the length is not 128 or a padding byte is
nonzero. -/
def decodeG1Point (bytes : List Nat) : Except CodecError G1Point :=
  if bytes.length = 128 then do
    let x ← decodeFp (bytes.take 64)
    let y ← decodeFp ((bytes.drop 64).take 64)
    .ok ⟨x, y⟩
  else
    .error .MalformedPointError

/-- Modelled from the spec: G2 decoding, failing with
`MalformedPointError` when the length is not 256 or a padding byte is
nonzero. -/
def decodeG2Point (bytes : List Nat) : Except CodecError G2Point :=
  if bytes.length = 256 then do
    let x0 ← decodeFp (bytes.take 64)
    let x1 ← decodeFp ((bytes.drop 64).take 64)
    let y0 ← decodeFp ((bytes.drop 128).take 64)
    let y1 ← decodeFp ((bytes.drop 192).take 64)
    .ok ⟨x0, x1, y0, y1⟩
  else
    .error .MalformedPointError

/- ===================== BLS aggregation engine ===================== -/

/-- Modelled from the spec: aggregation error taxonomy. -/
inductive AggError where
  | EmptyInputError
  | InvalidPointError
deriving DecidableEq

/-- Modelled from the spec: a transient signature share supplied per
aggregation request, carrying raw byte strings for the signature and
the public key. -/
structure SignatureShare where
  nodeId : String
  signature : List Nat
  publicKey : List Nat
deriving DecidableEq

/-- Modelled from the spec: the aggregation result, with the ordered
node id sequence in input order and the two group sums. -/
structure AggregateResult (G1 G2 : Type) where
  nodeIds : List String
  aggregateSignature : G2
  aggregatePublicKey : G1
deriving DecidableEq

/-- Modelled from the spec: every signature must decode to a valid,
subgroup-checked G2 point and every public key to a valid G1 point.
The decoders are parameters because the curve-library binding is not
under the given sources; a decoder returns `none` exactly on invalid
points. -/
def sharesValid {G1 G2 : Type} (dG1 : List Nat → Option G1)
    (dG2 : List Nat → Option G2) (shares : List SignatureShare) : Bool :=
  shares.all fun s => (dG2 s.signature).isSome && (dG1 s.publicKey).isSome

/-- Modelled from the spec: `aggregate` fails with `EmptyInputError` on
an empty share list, fails with `InvalidPointError` when any signature
or public key is invalid, and otherwise sums all signature points over
G2 and all public-key points over G1 (the spec states that curve point
addition is commutative and associative, captured by the
`AddCommMonoid` instances). -/
def aggregate {G1 G2 : Type} [AddCommMonoid G1] [AddCommMonoid G2]
    (dG1 : List Nat → Option G1) (dG2 : List Nat → Option G2)
    (shares : List SignatureShare) : Except AggError (AggregateResult G1 G2) :=
  if shares.isEmpty then
    .error .EmptyInputError
  else if sharesValid dG1 dG2 shares then
    .ok { nodeIds := shares.map fun s => s.nodeId
          aggregateSignature := (shares.map fun s => (dG2 s.signature).getD 0).sum
          aggregatePublicKey := (shares.map fun s => (dG1 s.publicKey).getD 0).sum }
  else
    .error .InvalidPointError

/- ===================== Membership table ===================== -/

/-- Modelled from the spec: the per-peer state machine states. -/
inductive PeerState where
  | Alive
  | Suspect
  | Dead
deriving DecidableEq

/-- Modelled from the spec: the severity order Dead beats Suspect beats
Alive, expressed as a numeric rank. -/
def PeerState.rank : PeerState → Nat
  | .Alive => 0
  | .Suspect => 1
  | .Dead => 2

/-- Modelled from the spec: a stored membership record for one peer. -/
structure PeerRecord where
  url : String
  incarnation : Nat
  state : PeerState
deriving DecidableEq

/-- Modelled from the spec: the merge rule accepts an incoming update
only when its incarnation is strictly greater, or the incarnations are
equal and the incoming state is strictly worse. -/
def shouldAccept (stored incoming : PeerRecord) : Bool :=
  decide (stored.incarnation < incoming.incarnation) ||
    (decide (incoming.incarnation = stored.incarnation) &&
      decide (stored.state.rank < incoming.state.rank))

/-- Modelled from the spec: merging an incoming record into the stored
one keeps the stored record unless the merge rule accepts the update. -/
def mergeRecord (stored incoming : PeerRecord) : PeerRecord :=
  if shouldAccept stored incoming then incoming else stored

/-- First-match association lookup in a membership table. -/
def findRecord : List (String × PeerRecord) → String → Option PeerRecord
  | [], _ => none
  | e :: rest, k => if e.1 = k then some e.2 else findRecord rest k

/-- Replace the first entry holding key `k` with the given record. -/
def replaceFirst : List (String × PeerRecord) → String → PeerRecord → List (String × PeerRecord)
  | [], _, _ => []
  | e :: rest, k, v => if e.1 = k then (k, v) :: rest else e :: replaceFirst rest k v

/-- Modelled from the spec: applying an incoming membership update; a
record is created on first contact, otherwise it is mutated only
through the merge rule. -/
def applyUpdate (table : List (String × PeerRecord)) (peerId : String)
    (incoming : PeerRecord) : List (String × PeerRecord) :=
  match findRecord table peerId with
  | none => (peerId, incoming) :: table
  | some stored => replaceFirst table peerId (mergeRecord stored incoming)

/- ===================== Gossip disseminator ===================== -/

/-- Modelled from the spec: gossip wire message types. -/
inductive MsgType where
  | Join
  | Heartbeat
  | Suspect
  | Dead
  | Leave
deriving DecidableEq

/-- Modelled from the spec: the peer state carried by each message
type when merged into the membership table. -/
def MsgType.toPeerState : MsgType → PeerState
  | .Join => .Alive
  | .Heartbeat => .Alive
  | .Suspect => .Suspect
  | .Dead => .Dead
  | .Leave => .Dead

/-- Modelled from the spec: a gossip message; the payload is modelled
as the peer it concerns together with that peer URL. -/
structure GossipMessage where
  messageId : String
  originId : String
  type : MsgType
  incarnation : Nat
  ttl : Nat
  peerId : String
  url : String
deriving DecidableEq

/-- Modelled from the spec: the observable gossip state, i.e. the
membership table, the FIFO dedup cache with its capacity, and the log
of forwarding attempts (message id paired with the ttl it was sent
with). -/
structure GossipState where
  table : List (String × PeerRecord)
  seen : List String
  capacity : Nat
  forwards : List (String × Nat)
deriving DecidableEq

/-- Modelled from the spec: recording a message id appends it to the
dedup cache and evicts the oldest entry when the capacity is
exceeded. -/
def recordSeen (s : GossipState) (id : String) : GossipState :=
  let seen1 := s.seen ++ [id]
  { s with seen := if s.capacity < seen1.length then seen1.drop 1 else seen1 }

/-- Modelled from the spec: message receipt.  A message whose id was
already seen is dropped silently; otherwise its id is recorded, the
merge rule is applied to the membership table, the ttl is decremented,
and the message is re-forwarded only when the decremented ttl is still
positive. -/
def onMessage (s : GossipState) (m : GossipMessage) : GossipState :=
  if m.messageId ∈ s.seen then s
  else
    let s1 := recordSeen s m.messageId
    { s1 with
      table := applyUpdate s1.table m.peerId ⟨m.url, m.incarnation, m.type.toPeerState⟩
      forwards :=
        if 0 < m.ttl - 1 then s1.forwards ++ [(m.messageId, m.ttl - 1)]
        else s1.forwards }

/- ===================== Dashboard service ===================== -/

/-- Registration status values stored in node_state.json, from
NodeState in the dashboard service sources. -/
inductive RegStatus where
  | pending
  | registered
  | failed
deriving DecidableEq

/-- The NodeState record persisted in node_state.json, from the
dashboard service sources. -/
structure NodeState where
  nodeId : String
  nodeName : String
  privateKey : String
  publicKey : String
  registrationStatus : RegStatus
  createdAt : String
  description : String
deriving DecidableEq

/-- The success flag and message returned by the deletion endpoints. -/
structure DeleteResult where
  success : Bool
  message : String
deriving DecidableEq

/-- DashboardService.createNode: refuses to create a node when
node_state.json already exists, otherwise writes the freshly generated
NodeState.  The file content is passed and returned explicitly; the
randomly generated identity is a parameter. -/
def createNode (file : Option NodeState) (fresh : NodeState) :
    Option NodeState × Except String NodeState :=
  match file with
  | some existing =>
    (some existing, .error "Node already exists. Delete node_state.json first to create a new one.")
  | none => (some fresh, .ok fresh)

/-- DashboardService.deleteCurrentNode: fails when no node exists;
returns a failure result without touching the file when the stored
registration status is registered; otherwise removes node_state.json. -/
def deleteCurrentNode (file : Option NodeState) :
    Except String (Option NodeState × DeleteResult) :=
  match file with
  | none => .error "No node exists to delete"
  | some node =>
    if node.registrationStatus = RegStatus.registered then
      .ok (some node, ⟨false, "Cannot delete: Node is registered on-chain. Revoke it first."⟩)
    else
      .ok (none, ⟨true, "Node deleted successfully."⟩)

/- ===================== Admin service ===================== -/

/-- The PrivateKeyStorage record kept as one json file per node in the
.keys directory, from the admin service sources.  The creation
timestamp is modelled as milliseconds since the epoch, which is what
the sort comparator extracts from the stored ISO string. -/
structure PrivateKeyStorage where
  nodeId : String
  privateKey : String
  nodeName : Option String
  description : Option String
  createdAt : Nat
deriving DecidableEq

/-- First-match association lookup in the key store. -/
def findKey : List (String × PrivateKeyStorage) → String → Option PrivateKeyStorage
  | [], _ => none
  | e :: rest, k => if e.1 = k then some e.2 else findKey rest k

/-- Remove the first entry holding key `k` from the key store. -/
def removeKey : List (String × PrivateKeyStorage) → String → List (String × PrivateKeyStorage)
  | [], _ => []
  | e :: rest, k => if e.1 = k then rest else e :: removeKey rest k

/-- AdminService.deletePrivateKey: throws when the key file does not
exist, otherwise unlinks the file and reports success.  The on-chain
registration status is passed as a parameter to make visible that the
implementation never consults it. -/
def deletePrivateKey (keys : List (String × PrivateKeyStorage))
    (chainRegistered : Bool) (nodeId : String) :
    Except String (List (String × PrivateKeyStorage) × DeleteResult) :=
  match findKey keys nodeId with
  | none => .error ("Private key file not found for node: " ++ nodeId)
  | some _ =>
    .ok (removeKey keys nodeId,
      ⟨true, "Private key deleted for " ++ nodeId ++ ". Node may still be registered on-chain."⟩)

/-- Node metadata as surfaced by the admin listing, from the admin
service sources. -/
structure NodeMetadata where
  nodeName : Option String
  description : Option String
  createdAt : Option Nat
deriving DecidableEq

/-- The NodeInfo record returned by the admin listing, from the admin
service sources. -/
structure NodeInfo where
  nodeId : String
  publicKey : String
  isRegistered : Bool
  hasPrivateKey : Bool
  metadata : Option NodeMetadata
deriving DecidableEq

/-- The timestamp key the sort comparator uses: the metadata creation
time, with a missing timestamp treated as epoch 0. -/
def NodeInfo.dateKey (n : NodeInfo) : Nat :=
  match n.metadata with
  | some md => md.createdAt.getD 0
  | none => 0

/-- The comparator passed to the sort in AdminService.listNodes:
registered nodes first, then creation date descending. -/
def nodeCompare (a b : NodeInfo) : Int :=
  if a.isRegistered ≠ b.isRegistered then
    if a.isRegistered then -1 else 1
  else
    (b.dateKey : Int) - (a.dateKey : Int)

/-- The ordering induced by `nodeCompare`: a sorts no later than b. -/
def nodeLe (a b : NodeInfo) : Bool :=
  decide (nodeCompare a b ≤ 0)

/-- Building the NodeInfo entry for one on-chain registered node,
enriched with local key availability, from AdminService.listNodes. -/
def chainNodeInfo (lookup : String → Option PrivateKeyStorage)
    (pr : String × String) : NodeInfo :=
  { nodeId := pr.1
    publicKey := pr.2
    isRegistered := true
    hasPrivateKey := (lookup pr.1).isSome
    metadata := (lookup pr.1).map fun d =>
      ⟨d.nodeName, d.description, some d.createdAt⟩ }

/-- AdminService.listNodes: the on-chain registered nodes followed by
the locally known unregistered nodes, sorted with `nodeCompare`.  The
chain query result and the locally discovered unregistered entries are
parameters because they come from external collaborators. -/
def listNodes (lookup : String → Option PrivateKeyStorage)
    (chainPairs : List (String × String))
    (localUnregistered : List NodeInfo) : List NodeInfo :=
  ((chainPairs.map (chainNodeInfo lookup)) ++ localUnregistered).mergeSort nodeLe

/- ===================== Blockchain service ===================== -/

/-- An on-chain contract invocation attempted by the blockchain
service. -/
inductive ChainCall where
  | batchRegisterPublicKeys (nodeIds publicKeys : List String)
deriving DecidableEq

/-- BlockchainService.batchRegisterNodesOnChain: throws when no wallet
is configured, then throws on an array length mismatch, and only then
constructs and submits the contract call. -/
def batchRegisterNodesOnChain (walletConfigured : Bool)
    (nodeIds publicKeys : List String) : Except String ChainCall :=
  if walletConfigured = false then
    .error "Blockchain not configured. Set ETH_PRIVATE_KEY environment variable."
  else if nodeIds.length ≠ publicKeys.length then
    .error "Node IDs and public keys array length mismatch"
  else
    .ok (.batchRegisterPublicKeys nodeIds publicKeys)

/- ===================== Codec helper lemmas ===================== -/

theorem beBytes_length : ∀ (k n : Nat), (beBytes k n).length = k := by
  intro k
  induction k with
  | zero => intro n; rfl
  | succ k ih => intro n; simp [beBytes, ih]

theorem beDecode_beBytes : ∀ (k n : Nat), n < 256 ^ k → beDecode (beBytes k n) = n := by
  intro k
  induction k with
  | zero =>
    intro n h
    simp only [pow_zero, Nat.lt_one_iff] at h
    simp [beBytes, beDecode, h]
  | succ k ih =>
    intro n h
    have hdiv : n / 256 < 256 ^ k := by
      rw [Nat.div_lt_iff_lt_mul (by norm_num)]
      calc n < 256 ^ (k + 1) := h
        _ = 256 ^ k * 256 := by ring
    have hrec := ih (n / 256) hdiv
    simp only [beBytes, beDecode, List.foldl_append] at hrec ⊢
    rw [hrec]
    simp only [List.foldl]
    omega

theorem fieldModulus_lt : fieldModulus < 256 ^ 48 := by decide

theorem encodeFp_length (n : Nat) : (encodeFp n).length = 64 := by
  simp [encodeFp, beBytes_length]

theorem decodeFp_encodeFp (n : Nat) (h : n < 256 ^ 48) : decodeFp (encodeFp n) = .ok n := by
  have htake : (encodeFp n).take 16 = List.replicate 16 0 := by
    have h := List.take_left (List.replicate 16 (0 : Nat)) (beBytes 48 n)
    rw [List.length_replicate] at h
    exact h
  have hdrop : (encodeFp n).drop 16 = beBytes 48 n := by
    have h := List.drop_left (List.replicate 16 (0 : Nat)) (beBytes 48 n)
    rw [List.length_replicate] at h
    exact h
  simp [decodeFp, htake, hdrop, beDecode_beBytes 48 n h]

theorem encodeFp_take (n : Nat) (rest : List Nat) :
    (encodeFp n ++ rest).take 64 = encodeFp n := by
  have h := @List.take_append_of_le_length Nat (encodeFp n) rest 64
    (by rw [encodeFp_length])
  rw [h, ← encodeFp_length n, List.take_length]

theorem encodeFp_drop (n : Nat) (rest : List Nat) :
    (encodeFp n ++ rest).drop 64 = rest := by
  have h := List.drop_left (encodeFp n) rest
  rwa [encodeFp_length] at h

/- ===================== Claim theorems ===================== -/

/-- Claim C3: for every valid G1 or G2 curve point, decoding the
fixed-width zero-padded EIP-2537 encoding (128 bytes for G1, 256 bytes
for G2) gives back the point: decode(encode(p)) = p. -/
theorem codec_round_trip (p : G1Point) (q : G2Point)
    (hp : p.wellFormed) (hq : q.wellFormed) :
    ((encodeG1 p).length = 128 ∧ decodeG1Point (encodeG1 p) = .ok p) ∧
      ((encodeG2 q).length = 256 ∧ decodeG2Point (encodeG2 q) = .ok q) := by
  obtain ⟨hpx, hpy⟩ := hp
  obtain ⟨hqx0, hqx1, hqy0, hqy1⟩ := hq
  have hx := decodeFp_encodeFp p.x (lt_trans hpx fieldModulus_lt)
  have hy := decodeFp_encodeFp p.y (lt_trans hpy fieldModulus_lt)
  have hx0 := decodeFp_encodeFp q.x0 (lt_trans hqx0 fieldModulus_lt)
  have hx1 := decodeFp_encodeFp q.x1 (lt_trans hqx1 fieldModulus_lt)
  have hy0 := decodeFp_encodeFp q.y0 (lt_trans hqy0 fieldModulus_lt)
  have hy1 := decodeFp_encodeFp q.y1 (lt_trans hqy1 fieldModulus_lt)
  constructor
  · have hlen : (encodeG1 p).length = 128 := by
      simp [encodeG1, encodeFp_length]
    refine ⟨hlen, ?_⟩
    have htake : (encodeG1 p).take 64 = encodeFp p.x := encodeFp_take p.x _
    have hdrop : (encodeG1 p).drop 64 = encodeFp p.y := by
      rw [encodeG1, encodeFp_drop]
    have htake2 : ((encodeG1 p).drop 64).take 64 = encodeFp p.y := by
      rw [hdrop, ← encodeFp_length p.y, List.take_length]
    simp only [decodeG1Point, hlen, if_true, htake, htake2, hx, hy]
    rfl
  · have hlen : (encodeG2 q).length = 256 := by
      simp [encodeG2, encodeFp_length]
    refine ⟨hlen, ?_⟩
    have htake : (encodeG2 q).take 64 = encodeFp q.x0 := by
      rw [encodeG2, List.append_assoc, List.append_assoc]
      exact encodeFp_take q.x0 _
    have hdrop64 : (encodeG2 q).drop 64 = encodeFp q.x1 ++ (encodeFp q.y0 ++ encodeFp q.y1) := by
      rw [encodeG2, List.append_assoc, List.append_assoc, encodeFp_drop]
    have hdrop128 : (encodeG2 q).drop 128 = encodeFp q.y0 ++ encodeFp q.y1 := by
      rw [show (128 : Nat) = 64 + 64 from rfl, ← List.drop_drop, hdrop64, encodeFp_drop]
    have hdrop192 : (encodeG2 q).drop 192 = encodeFp q.y1 := by
      rw [show (192 : Nat) = 128 + 64 from rfl, ← List.drop_drop, hdrop128, encodeFp_drop]
    have ht1 : ((encodeG2 q).drop 64).take 64 = encodeFp q.x1 := by
      rw [hdrop64]; exact encodeFp_take q.x1 _
    have ht2 : ((encodeG2 q).drop 128).take 64 = encodeFp q.y0 := by
      rw [hdrop128]; exact encodeFp_take q.y0 _
    have ht3 : ((encodeG2 q).drop 192).take 64 = encodeFp q.y1 := by
      rw [hdrop192, ← encodeFp_length q.y1, List.take_length]
    simp only [decodeG2Point, hlen, if_true, htake, ht1, ht2, ht3, hx0, hx1, hy0, hy1]
    rfl

/-- Claim C3 witness: the round trip evaluated at concrete well-formed
points. -/
theorem codec_round_trip_witness :
    (G1Point.mk 1 2).wellFormed ∧ (G2Point.mk 1 2 3 4).wellFormed ∧
      (((encodeG1 ⟨1, 2⟩).length = 128 ∧ decodeG1Point (encodeG1 ⟨1, 2⟩) = .ok ⟨1, 2⟩) ∧
        ((encodeG2 ⟨1, 2, 3, 4⟩).length = 256 ∧
          decodeG2Point (encodeG2 ⟨1, 2, 3, 4⟩) = .ok ⟨1, 2, 3, 4⟩)) :=
  ⟨by decide, by decide,
    codec_round_trip ⟨1, 2⟩ ⟨1, 2, 3, 4⟩ (by decide) (by decide)⟩

/-- Claim C2: aggregation of the empty share list fails with
EmptyInputError for every decoder pair; no identity aggregate is
returned. -/
theorem aggregate_empty_eq_error {G1 G2 : Type} [AddCommMonoid G1] [AddCommMonoid G2]
    (dG1 : List Nat → Option G1) (dG2 : List Nat → Option G2) :
    aggregate dG1 dG2 [] = .error .EmptyInputError := rfl

/-- Claim C5: aggregation over a share list containing a signature or
public key that does not decode to a valid point fails with
InvalidPointError; no aggregate result is produced. -/
theorem aggregate_invalid_point {G1 G2 : Type} [AddCommMonoid G1] [AddCommMonoid G2]
    (dG1 : List Nat → Option G1) (dG2 : List Nat → Option G2)
    (shares : List SignatureShare) (s : SignatureShare) (hs : s ∈ shares)
    (hbad : dG2 s.signature = none ∨ dG1 s.publicKey = none) :
    aggregate dG1 dG2 shares = .error .InvalidPointError := by
  have hne : shares.isEmpty = false := by
    cases shares with
    | nil => cases hs
    | cons a l => rfl
  have hval : sharesValid dG1 dG2 shares = false := by
    rw [Bool.eq_false_iff]
    intro hall
    rw [sharesValid, List.all_eq_true] at hall
    have hx := hall s hs
    rcases hbad with hb | hb <;> simp [hb] at hx
  simp [aggregate, hne, hval]

/-- Claim C4: for a nonempty share list, aggregation is invariant under
permutation of the shares: the aggregate signature and aggregate public
key are identical, while the nodeIds sequence follows the input order
of each call. -/
theorem aggregate_perm_invariant {G1 G2 : Type} [AddCommMonoid G1] [AddCommMonoid G2]
    (dG1 : List Nat → Option G1) (dG2 : List Nat → Option G2)
    (S Sp : List SignatureShare) (r : AggregateResult G1 G2)
    (hperm : Sp.Perm S) (hok : aggregate dG1 dG2 S = .ok r) :
    ∃ rp, aggregate dG1 dG2 Sp = .ok rp ∧
      rp.aggregateSignature = r.aggregateSignature ∧
      rp.aggregatePublicKey = r.aggregatePublicKey ∧
      r.nodeIds = S.map (fun s => s.nodeId) ∧
      rp.nodeIds = Sp.map (fun s => s.nodeId) := by
  by_cases he : S.isEmpty
  · simp [aggregate, he] at hok
  by_cases hv : sharesValid dG1 dG2 S = true
  case neg =>
    simp [aggregate, he, hv] at hok
  have hr : r = { nodeIds := S.map fun s => s.nodeId
                  aggregateSignature := (S.map fun s => (dG2 s.signature).getD 0).sum
                  aggregatePublicKey := (S.map fun s => (dG1 s.publicKey).getD 0).sum } := by
    rw [aggregate] at hok
    simp only [he, hv, Bool.false_eq_true, if_false, if_true] at hok
    exact (Except.ok.inj hok).symm
  have hep : ¬ Sp.isEmpty = true := by
    have hlen := hperm.length_eq
    cases Sp with
    | nil =>
      cases S with
      | nil => simp at he
      | cons a l => simp at hlen
    | cons a l => simp
  have hvp : sharesValid dG1 dG2 Sp = true := by
    rw [sharesValid, List.all_eq_true]
    intro x hx
    rw [sharesValid, List.all_eq_true] at hv
    exact hv x (hperm.mem_iff.mp hx)
  have hsig : (Sp.map fun s => (dG2 s.signature).getD 0).sum =
      (S.map fun s => (dG2 s.signature).getD 0).sum :=
    (hperm.map _).sum_eq
  have hpk : (Sp.map fun s => (dG1 s.publicKey).getD 0).sum =
      (S.map fun s => (dG1 s.publicKey).getD 0).sum :=
    (hperm.map _).sum_eq
  refine ⟨{ nodeIds := Sp.map fun s => s.nodeId
            aggregateSignature := (Sp.map fun s => (dG2 s.signature).getD 0).sum
            aggregatePublicKey := (Sp.map fun s => (dG1 s.publicKey).getD 0).sum },
    ?_, ?_, ?_, ?_, ?_⟩
  · rw [aggregate]
    simp only [hep, hvp, if_false, if_true]
    simp
  · rw [hr]; exact hsig
  · rw [hr]; exact hpk
  · rw [hr]
  · rfl

/- Concrete instantiation used by the aggregation witnesses: the group
sums are taken in the additive monoid of natural numbers and a decoder
accepts exactly the byte strings of the expected length. -/

def wDecG1 (l : List Nat) : Option Nat :=
  if l.length = 48 then some l.sum else none

def wDecG2 (l : List Nat) : Option Nat :=
  if l.length = 96 then some l.sum else none

def wShare1 : SignatureShare :=
  ⟨"n1", List.replicate 96 1, List.replicate 48 2⟩

def wShare2 : SignatureShare :=
  ⟨"n2", List.replicate 96 3, List.replicate 48 4⟩

def wBadShare : SignatureShare :=
  ⟨"n3", [1, 2, 3], List.replicate 48 1⟩

def wAggResult : AggregateResult Nat Nat :=
  ⟨["n1", "n2"], 384, 288⟩

/-- Claim C4 witness: the permutation invariance evaluated on two
concrete shares in both orders. -/
theorem aggregate_perm_invariant_witness :
    (([wShare2, wShare1] : List SignatureShare).Perm [wShare1, wShare2] ∧
      aggregate wDecG1 wDecG2 [wShare1, wShare2] = .ok wAggResult) ∧
    (∃ rp, aggregate wDecG1 wDecG2 [wShare2, wShare1] = .ok rp ∧
      rp.aggregateSignature = wAggResult.aggregateSignature ∧
      rp.aggregatePublicKey = wAggResult.aggregatePublicKey ∧
      wAggResult.nodeIds = [wShare1, wShare2].map (fun s => s.nodeId) ∧
      rp.nodeIds = [wShare2, wShare1].map (fun s => s.nodeId)) :=
  ⟨⟨by decide, by rfl⟩,
    aggregate_perm_invariant wDecG1 wDecG2 [wShare1, wShare2] [wShare2, wShare1]
      wAggResult (by decide) (by rfl)⟩

/-- Claim C5 witness: a share whose signature bytes have the wrong
length is rejected with InvalidPointError. -/
theorem aggregate_invalid_point_witness :
    (wBadShare ∈ ([wShare1, wBadShare] : List SignatureShare) ∧
      wDecG2 wBadShare.signature = none) ∧
    aggregate wDecG1 wDecG2 [wShare1, wBadShare] = .error .InvalidPointError :=
  ⟨⟨by decide, by decide⟩,
    aggregate_invalid_point wDecG1 wDecG2 [wShare1, wBadShare] wBadShare
      (by decide) (Or.inl (by decide))⟩

/- ===================== Membership helper lemmas ===================== -/

theorem shouldAccept_iff (stored incoming : PeerRecord) :
    shouldAccept stored incoming = true ↔
      (stored.incarnation < incoming.incarnation ∨
        (incoming.incarnation = stored.incarnation ∧
          stored.state.rank < incoming.state.rank)) := by
  simp [shouldAccept]

theorem replaceFirst_self :
    ∀ (table : List (String × PeerRecord)) (k : String) (v : PeerRecord),
      findRecord table k = some v → replaceFirst table k v = table := by
  intro table
  induction table with
  | nil => intro k v h; cases h
  | cons e rest ih =>
    intro k v h
    by_cases he : e.1 = k
    · rw [findRecord, if_pos he] at h
      rw [replaceFirst, if_pos he]
      have hv : v = e.2 := (Option.some.inj h).symm
      rw [hv, ← he]
    · rw [findRecord, if_neg he] at h
      rw [replaceFirst, if_neg he, ih k v h]

theorem findRecord_replaceFirst :
    ∀ (table : List (String × PeerRecord)) (k : String) (v w : PeerRecord),
      findRecord table k = some w →
        findRecord (replaceFirst table k v) k = some v := by
  intro table
  induction table with
  | nil => intro k v w h; cases h
  | cons e rest ih =>
    intro k v w h
    by_cases he : e.1 = k
    · rw [replaceFirst, if_pos he, findRecord, if_pos rfl]
    · rw [findRecord, if_neg he] at h
      rw [replaceFirst, if_neg he, findRecord, if_neg he]
      exact ih k v w h

/-- Claim C6: for a stored peer record, an incoming membership update is
applied exactly when its incarnation is strictly greater, or the
incarnations are equal and the incoming state is strictly worse under
Dead beats Suspect beats Alive; in particular a Suspect update at a
strictly lower incarnation than a stored Alive record leaves the table
unchanged. -/
theorem membership_merge_rule (table : List (String × PeerRecord)) (peerId : String)
    (stored incoming : PeerRecord)
    (hstored : findRecord table peerId = some stored) :
    (findRecord (applyUpdate table peerId incoming) peerId =
      some (if stored.incarnation < incoming.incarnation ∨
          (incoming.incarnation = stored.incarnation ∧
            stored.state.rank < incoming.state.rank)
        then incoming else stored)) ∧
    (¬ (stored.incarnation < incoming.incarnation ∨
        (incoming.incarnation = stored.incarnation ∧
          stored.state.rank < incoming.state.rank)) →
      applyUpdate table peerId incoming = table) ∧
    (stored.state = PeerState.Alive → incoming.state = PeerState.Suspect →
      incoming.incarnation < stored.incarnation →
      applyUpdate table peerId incoming = table) := by
  have happ : applyUpdate table peerId incoming =
      replaceFirst table peerId (mergeRecord stored incoming) := by
    rw [applyUpdate, hstored]
  have hmerge : mergeRecord stored incoming =
      (if stored.incarnation < incoming.incarnation ∨
          (incoming.incarnation = stored.incarnation ∧
            stored.state.rank < incoming.state.rank)
        then incoming else stored) := by
    by_cases hc : stored.incarnation < incoming.incarnation ∨
        (incoming.incarnation = stored.incarnation ∧
          stored.state.rank < incoming.state.rank)
    · rw [if_pos hc, mergeRecord, if_pos ((shouldAccept_iff stored incoming).mpr hc)]
    · rw [if_neg hc, mergeRecord,
        if_neg (fun hb => hc ((shouldAccept_iff stored incoming).mp hb))]
  refine ⟨?_, ?_, ?_⟩
  · rw [happ, findRecord_replaceFirst table peerId _ stored hstored, hmerge]
  · intro hno
    rw [happ, hmerge, if_neg hno]
    exact replaceFirst_self table peerId stored hstored
  · intro hAlive hSuspect hlt
    have hno : ¬ (stored.incarnation < incoming.incarnation ∨
        (incoming.incarnation = stored.incarnation ∧
          stored.state.rank < incoming.state.rank)) := by
      rintro (h | ⟨h, _⟩) <;> omega
    rw [happ, hmerge, if_neg hno]
    exact replaceFirst_self table peerId stored hstored

/-- Claim C6 witness: a concrete stale Suspect update against an Alive
record at a higher incarnation is ignored. -/
theorem membership_merge_rule_witness :
    (findRecord [("p1", ⟨"u1", 5, PeerState.Alive⟩)] "p1" =
      some ⟨"u1", 5, PeerState.Alive⟩) ∧
    applyUpdate [("p1", ⟨"u1", 5, PeerState.Alive⟩)] "p1" ⟨"u1", 3, PeerState.Suspect⟩ =
      [("p1", ⟨"u1", 5, PeerState.Alive⟩)] :=
  ⟨by decide,
    (membership_merge_rule [("p1", ⟨"u1", 5, PeerState.Alive⟩)] "p1"
      ⟨"u1", 5, PeerState.Alive⟩ ⟨"u1", 3, PeerState.Suspect⟩ (by decide)).2.2
      rfl rfl (by decide)⟩

/- ===================== Gossip helper lemmas ===================== -/

theorem recordSeen_table (s : GossipState) (id : String) :
    (recordSeen s id).table = s.table := rfl

theorem recordSeen_forwards (s : GossipState) (id : String) :
    (recordSeen s id).forwards = s.forwards := rfl

theorem recordSeen_capacity (s : GossipState) (id : String) :
    (recordSeen s id).capacity = s.capacity := rfl

theorem mem_recordSeen (s : GossipState) (id : String) (hcap : 1 ≤ s.capacity) :
    id ∈ (recordSeen s id).seen := by
  rw [recordSeen]
  by_cases h : s.capacity < (s.seen ++ [id]).length
  · simp only [if_pos h]
    have hlen : 1 ≤ s.seen.length := by
      rw [List.length_append, List.length_singleton] at h
      omega
    rw [List.drop_append_of_le_length hlen]
    exact List.mem_append_right _ (List.mem_singleton.mpr rfl)
  · simp only [if_neg h]
    exact List.mem_append_right _ (List.mem_singleton.mpr rfl)

theorem onMessage_seen (s : GossipState) (m : GossipMessage)
    (h : m.messageId ∈ s.seen) : onMessage s m = s := by
  unfold onMessage
  rw [if_pos h]

/-- Claim C7: delivering the same gossip message twice with no
intervening eviction leaves everything as after the first delivery: the
first delivery applies exactly one membership merge and logs exactly
one forwarding attempt, and the second delivery is a no-op that changes
no state and forwards nothing. -/
theorem onMessage_dedup (s : GossipState) (m : GossipMessage)
    (hcap : 1 ≤ s.capacity) (hnew : m.messageId ∉ s.seen) (httl : 2 ≤ m.ttl) :
    onMessage (onMessage s m) m = onMessage s m ∧
      (onMessage s m).forwards = s.forwards ++ [(m.messageId, m.ttl - 1)] ∧
      (onMessage s m).table =
        applyUpdate s.table m.peerId ⟨m.url, m.incarnation, m.type.toPeerState⟩ := by
  have h1 : onMessage s m =
      { recordSeen s m.messageId with
        table := applyUpdate (recordSeen s m.messageId).table m.peerId
          ⟨m.url, m.incarnation, m.type.toPeerState⟩
        forwards :=
          if 0 < m.ttl - 1 then
            (recordSeen s m.messageId).forwards ++ [(m.messageId, m.ttl - 1)]
          else (recordSeen s m.messageId).forwards } := by
    unfold onMessage
    rw [if_neg hnew]
  have hseen : m.messageId ∈ (onMessage s m).seen := by
    rw [h1]
    exact mem_recordSeen s m.messageId hcap
  have httl1 : 0 < m.ttl - 1 := by omega
  refine ⟨onMessage_seen _ m hseen, ?_, ?_⟩
  · rw [h1]
    simp only [if_pos httl1, recordSeen_forwards]
  · rw [h1]
    rfl

def wGossipState : GossipState := ⟨[], [], 1, []⟩

def wGossipMsg : GossipMessage := ⟨"m1", "n1", MsgType.Heartbeat, 7, 3, "p1", "u"⟩

/-- Claim C7 witness: the double-delivery idempotence evaluated at a
concrete fresh state and message. -/
theorem onMessage_dedup_witness :
    (1 ≤ wGossipState.capacity ∧ wGossipMsg.messageId ∉ wGossipState.seen ∧
      2 ≤ wGossipMsg.ttl) ∧
    (onMessage (onMessage wGossipState wGossipMsg) wGossipMsg =
        onMessage wGossipState wGossipMsg ∧
      (onMessage wGossipState wGossipMsg).forwards =
        wGossipState.forwards ++ [(wGossipMsg.messageId, wGossipMsg.ttl - 1)] ∧
      (onMessage wGossipState wGossipMsg).table =
        applyUpdate wGossipState.table wGossipMsg.peerId
          ⟨wGossipMsg.url, wGossipMsg.incarnation, wGossipMsg.type.toPeerState⟩) :=
  ⟨⟨by decide, by decide, by decide⟩,
    onMessage_dedup wGossipState wGossipMsg (by decide) (by decide) (by decide)⟩

/- ===================== Service claim theorems ===================== -/

/-- Claim C8: DashboardService.createNode refuses to create a node when
node_state.json already exists: it throws and leaves the stored
identity untouched, so an existing identity is never overwritten. -/
theorem createNode_refuses_existing (file : Option NodeState) (st fresh : NodeState)
    (h : file = some st) :
    createNode file fresh =
      (some st,
        .error "Node already exists. Delete node_state.json first to create a new one.") := by
  subst h
  rfl

def wNodePending : NodeState :=
  ⟨"0x01", "node_a", "0xkeyA", "0xpubA", RegStatus.pending, "2024-01-01T00:00:00Z", "a"⟩

def wNodeFresh : NodeState :=
  ⟨"0x02", "node_b", "0xkeyB", "0xpubB", RegStatus.pending, "2024-01-02T00:00:00Z", "b"⟩

def wNodeRegistered : NodeState :=
  ⟨"0x03", "node_c", "0xkeyC", "0xpubC", RegStatus.registered, "2024-01-03T00:00:00Z", "c"⟩

/-- Claim C8 witness: creation refused on a concrete pre-existing
node. -/
theorem createNode_refuses_existing_witness :
    (some wNodePending = some wNodePending) ∧
    createNode (some wNodePending) wNodeFresh =
      (some wNodePending,
        .error "Node already exists. Delete node_state.json first to create a new one.") :=
  ⟨rfl, createNode_refuses_existing (some wNodePending) wNodePending wNodeFresh rfl⟩

def wKeyStorage : PrivateKeyStorage :=
  ⟨"0xabc", "0xkey", some "n", some "d", 1000⟩

/-- Claim C1 counterexample: AdminService.deletePrivateKey removes the
stored node identity and reports success even when the node is
registered on-chain (registration flag true), so it is false that
every deletion operation first establishes that the node is not
on-chain-registered and refuses otherwise. -/
theorem deletePrivateKey_registered_counterexample :
    deletePrivateKey [("0xabc", wKeyStorage)] true "0xabc" =
      .ok ([],
        ⟨true, "Private key deleted for 0xabc. Node may still be registered on-chain."⟩) ∧
    ([] : List (String × PrivateKeyStorage)) ≠ [("0xabc", wKeyStorage)] :=
  ⟨rfl, by simp⟩

/-- Claim C1 (amended): DashboardService.deleteCurrentNode refuses
deletion whenever the stored registration status is registered,
returning a failure result and leaving the stored identity unchanged;
AdminService.deletePrivateKey, by contrast, deletes the local key
without consulting on-chain registration. -/
theorem deleteCurrentNode_refuses_registered (file : Option NodeState) (node : NodeState)
    (hfile : file = some node)
    (hreg : node.registrationStatus = RegStatus.registered) :
    deleteCurrentNode file =
      .ok (some node,
        ⟨false, "Cannot delete: Node is registered on-chain. Revoke it first."⟩) := by
  subst hfile
  rw [deleteCurrentNode]
  simp [hreg]

/-- Claim C1 amended-theorem witness: refusal evaluated on a concrete
registered node. -/
theorem deleteCurrentNode_refuses_registered_witness :
    (some wNodeRegistered = some wNodeRegistered ∧
      wNodeRegistered.registrationStatus = RegStatus.registered) ∧
    deleteCurrentNode (some wNodeRegistered) =
      .ok (some wNodeRegistered,
        ⟨false, "Cannot delete: Node is registered on-chain. Revoke it first."⟩) :=
  ⟨⟨rfl, rfl⟩,
    deleteCurrentNode_refuses_registered (some wNodeRegistered) wNodeRegistered rfl rfl⟩

/-- Claim C10: BlockchainService.batchRegisterNodesOnChain rejects
mismatched input array lengths with the length-mismatch error before
constructing the contract call, and no on-chain call is ever produced
for such inputs, whatever the wallet configuration. -/
theorem batchRegister_length_mismatch (nodeIds publicKeys : List String)
    (h : nodeIds.length ≠ publicKeys.length) :
    batchRegisterNodesOnChain true nodeIds publicKeys =
        .error "Node IDs and public keys array length mismatch" ∧
      ∀ (w : Bool) (c : ChainCall),
        batchRegisterNodesOnChain w nodeIds publicKeys ≠ .ok c := by
  constructor
  · rw [batchRegisterNodesOnChain]
    simp [h]
  · intro w c
    cases w <;> rw [batchRegisterNodesOnChain] <;> simp [h]

/-- Claim C10 witness: the rejection evaluated on concrete arrays of
lengths one and zero. -/
theorem batchRegister_length_mismatch_witness :
    (["0xaa"].length ≠ ([] : List String).length) ∧
    (batchRegisterNodesOnChain true ["0xaa"] [] =
        .error "Node IDs and public keys array length mismatch" ∧
      ∀ (w : Bool) (c : ChainCall),
        batchRegisterNodesOnChain w ["0xaa"] [] ≠ .ok c) :=
  ⟨by decide, batchRegister_length_mismatch ["0xaa"] [] (by decide)⟩

/- ===================== Listing order lemmas ===================== -/

/-- The ordering the claim describes for the admin node listing: a
registered node may precede an unregistered one, and two nodes of the
same registration status are in descending creation-time order. -/
def listedBefore (a b : NodeInfo) : Prop :=
  (a.isRegistered = true ∧ b.isRegistered = false) ∨
    (a.isRegistered = b.isRegistered ∧ b.dateKey ≤ a.dateKey)

theorem nodeLe_trans (a b c : NodeInfo)
    (hab : nodeLe a b = true) (hbc : nodeLe b c = true) : nodeLe a c = true := by
  rw [nodeLe, decide_eq_true_iff] at hab hbc ⊢
  rw [nodeCompare] at hab hbc ⊢
  cases ha : a.isRegistered <;> cases hb : b.isRegistered <;> cases hc : c.isRegistered <;>
    simp [ha, hb, hc] at hab hbc ⊢ <;> omega

theorem nodeLe_total (a b : NodeInfo) : (nodeLe a b || nodeLe b a) = true := by
  rw [nodeLe, nodeLe, Bool.or_eq_true, decide_eq_true_iff, decide_eq_true_iff,
    nodeCompare, nodeCompare]
  cases ha : a.isRegistered <;> cases hb : b.isRegistered <;> simp [ha, hb] <;> omega

theorem nodeLe_listedBefore (a b : NodeInfo) (h : nodeLe a b = true) :
    listedBefore a b := by
  rw [nodeLe, decide_eq_true_iff, nodeCompare] at h
  rw [listedBefore]
  cases ha : a.isRegistered <;> cases hb : b.isRegistered <;>
    simp [ha, hb] at h ⊢ <;> omega

/-- Claim C9: every list returned by AdminService.listNodes places
every on-chain registered node before every unregistered node, and
within each group orders nodes by creation timestamp descending, a
missing timestamp counting as epoch 0. -/
theorem listNodes_sorted (lookup : String → Option PrivateKeyStorage)
    (chainPairs : List (String × String)) (localUnregistered : List NodeInfo) :
    List.Pairwise listedBefore (listNodes lookup chainPairs localUnregistered) := by
  have h := @List.sorted_mergeSort NodeInfo nodeLe nodeLe_trans nodeLe_total
    ((chainPairs.map (chainNodeInfo lookup)) ++ localUnregistered)
  rw [listNodes]
  exact h.imp fun hle => nodeLe_listedBefore _ _ hle

/-- Claim C2 witness: the empty-input rejection evaluated at the
concrete decoder pair over the natural numbers. -/
theorem aggregate_empty_eq_error_witness :
    aggregate wDecG1 wDecG2 [] = .error .EmptyInputError :=
  aggregate_empty_eq_error wDecG1 wDecG2

/-- Claim C9 witness: the listing order evaluated on one registered
chain node, no local key files and one unregistered local node. -/
theorem listNodes_sorted_witness :
    List.Pairwise listedBefore
      (listNodes (fun _ => none) [("0xaa", "0xpkA")]
        [⟨"0xbb", "0xpkB", false, true, some ⟨some "b", some "d", some 2000⟩⟩]) :=
  listNodes_sorted (fun _ => none) [("0xaa", "0xpkA")]
    [⟨"0xbb", "0xpkB", false, true, some ⟨some "b", some "d", some 2000⟩⟩]
